import Mathlib

/-!
Verification of the resumable paginated retrieval pipeline of
`pocket_export.py` (Pocket → Full-Article Exporter).

The embedding below translates the checkpoint store (`_read_checkpoint`,
`_write_checkpoint`, lines 133-141), the transport retry configuration of
`_make_session` (lines 64-77), and the pagination driver
`fetch_pocket_items` (lines 144-188) into Lean.

Modelling conventions:
  * The checkpoint file is an `Option String` (`none` = file absent), since
    `_write_checkpoint` stores the decimal rendering of the offset and
    `_read_checkpoint` parses the file's text with Python `int`.
  * One entry of the request stream is consumed per iteration of the
    `while True` loop; each entry is a function of the request's
    (offset, count) pair, modelling the remote service's answer to one
    `_post` call as observed at the call site (after the HTTP adapter's
    internal bounded retries).  A `.exc` outcome models a
    `requests.exceptions.RequestException` raised by `_post` itself;
    `.resp status body` models a returned HTTP response.
  * Since the Python loop is `while True` and can loop forever (the
    `except` branch sleeps and `continue`s), the Lean loop recurses on the
    finite stream; exhausting the stream yields the `.starved` exit,
    meaning "the loop was still running after that many attempts".
  * Observable side effects (the clamp warning print, each POST, each
    retry message, each successful page merge with its checkpoint write)
    are recorded in an event trace.
-/

namespace PocketExport

/-- Item records are opaque to the driver; we model each record by a
stable identifier. -/
abbrev Item := Nat

/-- Constant `MAX_BATCH = 30` (line 57): Pocket's hard per-call cap. -/
def MAX_BATCH : Nat := 30

/-- Configuration `Retry(total=5, ...)` in `_make_session` (line 67): the transport
layer performs at most 5 additional attempts. -/
def RETRY_TOTAL : Nat := 5

/-- Configuration `status_forcelist=[500, 502, 503, 504]` in `_make_session` (line 69):
the retryable server error statuses. -/
def STATUS_FORCELIST : List Nat := [500, 502, 503, 504]

/-! ### Decimal strings: Python `str(offset)` and `int(text)` -/

/-- The decimal digit character for `d < 10`. -/
def digitChar (d : Nat) : Char := Char.ofNat (48 + d)

/-- Digit-list worker, structurally recursive on a fuel bound so that the
kernel can evaluate it; `fuel ≥ n` always suffices. -/
def natToDecAux : Nat → Nat → List Char
  | 0, _ => []
  | fuel + 1, n =>
    if n < 10 then [digitChar n]
    else natToDecAux fuel (n / 10) ++ [digitChar (n % 10)]

/-- The decimal digit list of `n`, most significant first: the characters
of Python `str(n)` for `n ≥ 0`. -/
def natToDecChars (n : Nat) : List Char := natToDecAux (n + 1) n

/-- Python `str(n)` for a non-negative integer `n`. -/
def natToDecStr (n : Nat) : String := String.mk (natToDecChars n)

/-- The numeric value of an ASCII decimal digit character (code points
48-57), `none` on any other character. -/
def charToDigit (c : Char) : Option Nat :=
  if 48 ≤ c.toNat ∧ c.toNat ≤ 57 then some (c.toNat - 48) else none

/-- Accumulating left-to-right decimal parse; fails on the first
non-digit character. -/
def parseDigitsAux (acc : Nat) : List Char → Option Nat
  | [] => some acc
  | c :: cs =>
    match charToDigit c with
    | some d => parseDigitsAux (acc * 10 + d) cs
    | none => none

/-- Python `int(s)` restricted to the canonical non-negative contents
this program itself produces: a non-empty all-digit string.  This is
the fragment of `int` the run model meets (checkpoint contents written
by `_write_checkpoint`, the simulated server's total field); the full
ASCII behaviour of `int`, with whitespace stripping, sign, and
underscore grouping, is modelled by `pyIntParse` below, and every string
this fragment accepts is accepted by `pyIntParse` with the same value
(`pyIntParse_of_parsePyNat`). -/
def parsePyNat (s : String) : Option Nat :=
  if s.data.isEmpty then none else parseDigitsAux 0 s.data

/-- The ASCII characters Python `int` strips from both ends of its string
argument: code points 9-13 (tab, LF, VT, FF, CR) and 32 (space).  (The
file-separator characters 28-31 satisfy `str.isspace` but `int` does NOT
accept them, and is verified to reject them; non-ASCII whitespace such
as U+0085 or U+00A0 also exists, which is why the corruption theorem
below restricts itself to all-ASCII contents.) -/
def isPySpace (c : Char) : Bool :=
  decide ((9 ≤ c.toNat ∧ c.toNat ≤ 13) ∨ c.toNat = 32)

/-- Leading and trailing `int` whitespace removed. -/
def stripPySpace (l : List Char) : List Char :=
  ((l.dropWhile isPySpace).reverse.dropWhile isPySpace).reverse

/-- The tail of Python's base-10 digit part after its first digit:
digits, with single underscores allowed strictly between digits
(`1_2_3` parses, `1__2` and `1_` do not).  `expectDigit` records that
the previous character was an underscore, so only a digit may follow. -/
def parseDURun (acc : Nat) (expectDigit : Bool) : List Char → Option Nat
  | [] => if expectDigit then none else some acc
  | c :: rest =>
    match charToDigit c with
    | some d => parseDURun (acc * 10 + d) false rest
    | none =>
      if expectDigit = false ∧ c = '_' then parseDURun acc true rest
      else none

/-- Python's base-10 digit part: non-empty, starts with a digit, single
underscores only between digits. -/
def parseDigitsUnderscore (l : List Char) : Option Nat :=
  match l with
  | [] => none
  | c :: rest =>
    match charToDigit c with
    | none => none
    | some d => parseDURun d false rest

/-- Python `int(s)` for base 10, modelled faithfully on ASCII strings:
strip `int` whitespace from both ends, then an optional single sign
followed by an underscore-grouped digit run, nothing else.  (Validated
exhaustively against CPython on all strings of length up to 6 over an
alphabet of digits, signs, underscores, whitespace and garbage.  Outside
ASCII, `int` additionally accepts Unicode decimal digits and Unicode
whitespace that this model rejects, so theorems about unparseable
contents carry an all-ASCII hypothesis.) -/
def pyIntParse (s : String) : Option Int :=
  match stripPySpace s.data with
  | [] => none
  | c :: rest =>
    if c = '+' then (parseDigitsUnderscore rest).map Int.ofNat
    else if c = '-' then (parseDigitsUnderscore rest).map (fun n => -(Int.ofNat n))
    else (parseDigitsUnderscore (c :: rest)).map Int.ofNat

/-! ### Checkpoint store (lines 51 and 133-141) -/

/-- The local filesystem as far as this program observes it: the contents
of the `.pocket_checkpoint` file, `none` when the file is absent. -/
structure FS where
  checkpoint : Option String
deriving DecidableEq

/-- Function `_read_checkpoint` (lines 133-137): `int(CHECKPOINT.read_text())`,
with any exception (absent file, unparseable contents) giving `0`. -/
def read_checkpoint (fs : FS) : Nat :=
  match fs.checkpoint with
  | none => 0
  | some s => (parsePyNat s).getD 0

/-- Function `_write_checkpoint` (lines 140-141):
`CHECKPOINT.write_text(str(offset))` — the file's entire content becomes
the decimal offset. -/
def write_checkpoint (offset : Nat) (_fs : FS) : FS :=
  ⟨some (natToDecStr offset)⟩

/-- Call `CHECKPOINT.unlink(missing_ok=True)` (line 187): removes the file,
succeeding also when it is already absent. -/
def unlink_checkpoint (_fs : FS) : FS := ⟨none⟩

/-! ### The pagination driver `fetch_pocket_items` (lines 144-188) -/

/-- The parsed JSON body of a `/v3/get` response. `malformed` models a
body on which `r.json()` raises.  `list?` is the `"list"` field (a
mapping whose `.values()` the code takes; `none` = field absent, which
`data.get("list", {})` turns into the empty batch).  `total?` is the
`"total"` field as the raw string handed to `int(...)`. -/
inductive Body where
  | malformed
  | json (list? : Option (List Item)) (total? : Option String)
deriving DecidableEq

/-- What one `_post` call yields at the call site. -/
inductive PostOutcome where
  | exc
  | resp (status : Nat) (body : Body)
deriving DecidableEq

/-- The remote service's behaviour for one attempt, as a function of the
`offset` and `count` fields of the request payload (lines 156-165). -/
abbrev Server := Nat → Nat → PostOutcome

/-- A server that ignores the request and produces a fixed outcome. -/
def constServer (out : PostOutcome) : Server := fun _ _ => out

/-- Observable events of one run. `merged` records a successful page
merge: the page's length, the advanced offset just checkpointed, and the
length of the accumulated collection after `all_items.extend(batch)`. -/
inductive Event where
  | clampWarn (requested : Nat)
  | request (offset : Nat) (count : Nat)
  | retryMsg (offset : Nat)
  | merged (pageLen : Nat) (newOffset : Nat) (itemsLen : Nat)
deriving DecidableEq

/-- How control left the fetch loop. `broke` = a `break` was executed
(normal return path); `raised` = an exception escaped the function
(`r.json()` or `int(...)` raising outside the `try`); `starved` = the
attempt stream ran out while the `while True` loop was still going. -/
inductive LoopExit where
  | broke
  | raised
  | starved
deriving DecidableEq

/-- The observable result of a run: exit kind, final `offset`, final
`all_items`, final filesystem state, and the event trace. -/
structure RunResult where
  exit : LoopExit
  offset : Nat
  items : List Item
  fs : FS
  trace : List Event
deriving DecidableEq

/-- The effect of one iteration of the `while True` loop (lines 155-185):
either the loop continues with an updated state, or it ends the whole
call. -/
inductive StepRes where
  | next (offset : Nat) (items : List Item) (fs : FS) (evts : List Event)
  | stop (r : RunResult)

/-- One iteration of the loop body, lines 156-185.  `_post` plus
`raise_for_status` either raises a `RequestException` — caught by the
`except` clause, which prints the retry message, sleeps 5 s and
`continue`s — or yields a parsed body.  `raise_for_status` raises
exactly on statuses in 400..599, and `HTTPError` is a subclass of
`RequestException`, so every such status takes the retry path.  On a
parseable body, an empty batch `break`s; otherwise the batch is merged,
the offset advanced by the batch length and checkpointed, and the loop
`break`s when the offset has reached `int(data.get("total", offset))`. -/
def stepPage (count : Nat) (srv : Server) (offset : Nat) (allItems : List Item)
    (fs : FS) : StepRes :=
  match srv offset count with
  | .exc =>
    .next offset allItems fs [.request offset count, .retryMsg offset]
  | .resp status body =>
    if 400 ≤ status ∧ status < 600 then
      .next offset allItems fs [.request offset count, .retryMsg offset]
    else
      match body with
      | .malformed =>
        .stop ⟨.raised, offset, allItems, fs, [.request offset count]⟩
      | .json list? total? =>
        let batch := list?.getD []
        if batch.isEmpty then
          .stop ⟨.broke, offset, allItems, fs, [.request offset count]⟩
        else
          let allItems2 := allItems ++ batch
          let offset2 := offset + batch.length
          let fs2 := write_checkpoint offset2 fs
          let evts := [Event.request offset count,
                       Event.merged batch.length offset2 allItems2.length]
          match total? with
          | none => .stop ⟨.broke, offset2, allItems2, fs2, evts⟩
          | some ts =>
            match parsePyNat ts with
            | none => .stop ⟨.raised, offset2, allItems2, fs2, evts⟩
            | some total_available =>
              if total_available ≤ offset2 then
                .stop ⟨.broke, offset2, allItems2, fs2, evts⟩
              else
                .next offset2 allItems2 fs2 evts

/-- The `while True` loop, consuming one stream entry per iteration. -/
def fetchLoop (count : Nat) : List Server → Nat → List Item → FS → RunResult
  | [], offset, allItems, fs => ⟨.starved, offset, allItems, fs, []⟩
  | srv :: rest, offset, allItems, fs =>
    match stepPage count srv offset allItems fs with
    | .stop r => r
    | .next offset2 allItems2 fs2 evts =>
      let r := fetchLoop count rest offset2 allItems2 fs2
      { r with trace := evts ++ r.trace }

/-- The code after the loop: `pbar.close()` then
`CHECKPOINT.unlink(missing_ok=True)` then `return all_items`
(lines 186-188).  Only a `break` reaches this point; a raised exception
skips it, and a still-running loop never gets there. -/
def finalizeRun (r : RunResult) : RunResult :=
  match r.exit with
  | .broke => { r with fs := unlink_checkpoint r.fs }
  | _ => r

/-- Function `fetch_pocket_items` (lines 144-188): clamp the batch size to
`MAX_BATCH` with a single warning (lines 145-147), read the starting
offset from the checkpoint (line 150), start from an empty `all_items`
(line 149), run the loop, and on normal exit delete the checkpoint and
return the accumulated items. -/
def fetch_pocket_items (batch_size : Nat) (outs : List Server) (fs0 : FS) :
    RunResult :=
  let clampEvts := if batch_size > MAX_BATCH then [Event.clampWarn batch_size] else []
  let bs := if batch_size > MAX_BATCH then MAX_BATCH else batch_size
  let offset0 := read_checkpoint fs0
  let r := fetchLoop bs outs offset0 [] fs0
  finalizeRun { r with trace := clampEvts ++ r.trace }

/-! ### The transport layer's bounded status retries (lines 64-77) -/

/-- The urllib3 `Retry` state machine for status-based retries, as
configured by `_make_session`: attempt `i`, with `rem` retries left.  A
status in the forcelist consumes one retry; once the budget is gone the
last response is handed back (because `raise_on_status=False` makes the
pool return the response instead of raising `MaxRetryError`). -/
def sessionPostAux (attempt : Nat → Nat × Body) : Nat → Nat → Nat × Body
  | i, 0 => attempt i
  | i, rem + 1 =>
    let r := attempt i
    if r.1 ∈ STATUS_FORCELIST then sessionPostAux attempt (i + 1) rem else r

/-- One `SESSION.post` call: up to `RETRY_TOTAL` transport-level retries
on forcelisted statuses. -/
def sessionPost (attempt : Nat → Nat × Body) : Nat × Body :=
  sessionPostAux attempt 0 RETRY_TOTAL

/-! ### Derived observations on traces -/

def isRequestEv : Event → Bool
  | .request _ _ => true
  | _ => false

def isRetryEv : Event → Bool
  | .retryMsg _ => true
  | _ => false

def isClampEv : Event → Bool
  | .clampWarn _ => true
  | _ => false

/-- Number of POSTs issued during the run. -/
def countRequests (tr : List Event) : Nat := tr.countP isRequestEv

/-- Number of retry warnings printed during the run. -/
def countRetryMsgs (tr : List Event) : Nat := tr.countP isRetryEv

/-- Number of clamp warnings printed during the run. -/
def countClampWarns (tr : List Event) : Nat := tr.countP isClampEv

/-- The `offset` fields of the POSTs, in order. -/
def requestOffsets (tr : List Event) : List Nat :=
  tr.filterMap fun e =>
    match e with
    | .request o _ => some o
    | _ => none

/-- The `count` fields of the POSTs, in order. -/
def requestCounts (tr : List Event) : List Nat :=
  tr.filterMap fun e =>
    match e with
    | .request _ c => some c
    | _ => none

/-- The page sizes of the successful merges, in order. -/
def mergedSizes (tr : List Event) : List Nat :=
  tr.filterMap fun e =>
    match e with
    | .merged l _ _ => some l
    | _ => none

/-- The `(pageLen, newOffset, itemsLen)` records of the successful
merges, in order. -/
def mergedRecs (tr : List Event) : List (Nat × Nat × Nat) :=
  tr.filterMap fun e =>
    match e with
    | .merged l o n => some (l, o, n)
    | _ => none

/-- Checks the merge-chain invariant from start offset `O`: each merge
has a positive page length, advances the offset from the previous one by
exactly that length, and leaves the accumulated collection with
`newOffset - O` items. -/
def mergedOkB (O : Nat) : Nat → List (Nat × Nat × Nat) → Bool
  | _, [] => true
  | prev, (l, o, n) :: rest =>
    decide (1 ≤ l) && decide (o = prev + l) && decide (n + O = o) && mergedOkB O o rest

/-- An outcome the `except requests.exceptions.RequestException` clause
swallows: a raised exception, or any response whose status makes
`raise_for_status` raise. -/
def isRetried : PostOutcome → Bool
  | .exc => true
  | .resp status _ => decide (400 ≤ status ∧ status < 600)

/-! ### A simulated remote collection of `N` items -/

/-- A well-behaved simulated server over a collection of `N` items (the
items are the identifiers `0, …, N-1`): a request at `offset` for
`count` items gets status 200, the next `min count (N - offset)` items,
and a total field carrying the decimal rendering of `N`. -/
def simServer (N : Nat) : Server := fun offset count =>
  .resp 200 (.json (some (List.range' offset (min count (N - offset))))
                   (some (natToDecStr N)))

/-! ### Decimal round-trip -/

theorem charToDigit_digitChar {d : Nat} (hd : d < 10) :
    charToDigit (digitChar d) = some d := by
  interval_cases d <;> decide

theorem parseDigitsAux_append (acc : Nat) (l1 l2 : List Char) :
    parseDigitsAux acc (l1 ++ l2) =
      match parseDigitsAux acc l1 with
      | some a => parseDigitsAux a l2
      | none => none := by
  induction l1 generalizing acc with
  | nil => simp [parseDigitsAux]
  | cons c cs ih =>
    simp only [List.cons_append, parseDigitsAux]
    cases charToDigit c with
    | none => rfl
    | some d => exact ih _

theorem natToDecChars_ne_nil (n : Nat) : natToDecChars n ≠ [] := by
  rw [natToDecChars, natToDecAux]
  split <;> simp

theorem parseDigitsAux_natToDecAux :
    ∀ fuel n acc : Nat, n ≤ fuel →
      parseDigitsAux acc (natToDecAux fuel n) =
        some (acc * 10 ^ (natToDecAux fuel n).length + n) := by
  intro fuel
  induction fuel with
  | zero =>
    intro n acc hn
    have hn0 : n = 0 := by omega
    subst hn0
    simp [natToDecAux, parseDigitsAux]
  | succ fuel ih =>
    intro n acc hn
    rw [natToDecAux]
    split
    case isTrue h =>
      simp [parseDigitsAux, charToDigit_digitChar h]
    case isFalse h =>
      have hdiv : n / 10 ≤ fuel := by
        have hlt : n / 10 < n := Nat.div_lt_self (by omega) (by omega)
        omega
      rw [parseDigitsAux_append, ih (n / 10) acc hdiv]
      simp only [parseDigitsAux, charToDigit_digitChar (Nat.mod_lt n (by omega)),
        List.length_append, List.length_cons, List.length_nil]
      have hm : (acc * 10 ^ (natToDecAux fuel (n / 10)).length + n / 10) * 10 + n % 10
          = acc * 10 ^ ((natToDecAux fuel (n / 10)).length + (0 + 1)) + n := by
        have hdm : 10 * (n / 10) + n % 10 = n := Nat.div_add_mod n 10
        have hp : 10 ^ ((natToDecAux fuel (n / 10)).length + (0 + 1))
            = 10 ^ (natToDecAux fuel (n / 10)).length * 10 := by
          rw [Nat.zero_add, Nat.pow_succ]
        rw [hp]
        ring_nf
        omega
      rw [hm]

theorem parseDigitsAux_natToDecChars (n : Nat) :
    ∀ acc : Nat, parseDigitsAux acc (natToDecChars n) =
      some (acc * 10 ^ (natToDecChars n).length + n) := by
  intro acc
  exact parseDigitsAux_natToDecAux (n + 1) n acc (by omega)

theorem parsePyNat_natToDecStr (n : Nat) : parsePyNat (natToDecStr n) = some n := by
  have hne := natToDecChars_ne_nil n
  have h := parseDigitsAux_natToDecChars n 0
  simp only [natToDecStr, parsePyNat]
  rw [if_neg (by simpa using hne)]
  simpa using h

/-! ### Every string the canonical fragment accepts, `int` accepts too -/

theorem charToDigit_isSome_bounds {c : Char} (h : (charToDigit c).isSome = true) :
    48 ≤ c.toNat ∧ c.toNat ≤ 57 := by
  by_cases hb : 48 ≤ c.toNat ∧ c.toNat ≤ 57
  · exact hb
  · rw [charToDigit, if_neg hb] at h
    cases h

theorem parseDigitsAux_digits :
    ∀ (l : List Char) (acc v : Nat), parseDigitsAux acc l = some v →
      ∀ c ∈ l, (charToDigit c).isSome = true := by
  intro l
  induction l with
  | nil =>
    intro acc v _ c hc
    cases hc
  | cons a as ih =>
    intro acc v h c hc
    cases hca : charToDigit a with
    | none =>
      rw [parseDigitsAux, hca] at h
      cases h
    | some d =>
      rw [parseDigitsAux, hca] at h
      rcases List.mem_cons.mp hc with rfl | hcs
      · rw [hca]
        rfl
      · exact ih _ v h c hcs

theorem dropWhile_eq_self_of_none (p : Char → Bool) :
    ∀ l : List Char, (∀ c ∈ l, p c = false) → l.dropWhile p = l := by
  intro l h
  cases l with
  | nil => rfl
  | cons a as =>
    rw [List.dropWhile_cons, h a (List.mem_cons_self a as)]
    simp

theorem stripPySpace_eq_self {l : List Char}
    (h : ∀ c ∈ l, isPySpace c = false) : stripPySpace l = l := by
  rw [stripPySpace, dropWhile_eq_self_of_none _ l h,
    dropWhile_eq_self_of_none _ l.reverse
      (fun c hc => h c (List.mem_reverse.mp hc)),
    List.reverse_reverse]

theorem parseDURun_eq_parseDigitsAux :
    ∀ (l : List Char) (acc : Nat), (∀ c ∈ l, (charToDigit c).isSome = true) →
      parseDURun acc false l = parseDigitsAux acc l := by
  intro l
  induction l with
  | nil => intro acc _; rfl
  | cons a as ih =>
    intro acc h
    cases hca : charToDigit a with
    | none =>
      have := h a (List.mem_cons_self a as)
      rw [hca] at this
      cases this
    | some d =>
      rw [parseDURun, parseDigitsAux, hca]
      exact ih _ (fun c hc => h c (List.mem_cons_of_mem a hc))

/-- A non-empty run of ASCII digits is parsed by the full `int` model to
the same value the canonical digit parse gives: no digit is `int`
whitespace, none is a sign, and the underscore rule is vacuous. -/
theorem pyIntParse_of_parseDigitsAux {l : List Char} {v : Nat}
    (hne : l ≠ []) (h : parseDigitsAux 0 l = some v) :
    pyIntParse (String.mk l) = some (v : Int) := by
  have hdig : ∀ c ∈ l, (charToDigit c).isSome = true :=
    parseDigitsAux_digits l 0 v h
  have hnospace : ∀ c ∈ l, isPySpace c = false := by
    intro c hc
    obtain ⟨h1, h2⟩ := charToDigit_isSome_bounds (hdig c hc)
    simp only [isPySpace, decide_eq_false_iff_not]
    omega
  have hstrip : stripPySpace (String.mk l).data = l :=
    stripPySpace_eq_self hnospace
  cases l with
  | nil => exact absurd rfl hne
  | cons c rest =>
    obtain ⟨hb1, hb2⟩ :=
      charToDigit_isSome_bounds (hdig c (List.mem_cons_self c rest))
    have hplus : ¬ c = '+' := by
      intro he
      rw [he] at hb1
      exact absurd hb1 (by decide)
    have hminus : ¬ c = '-' := by
      intro he
      rw [he] at hb1
      exact absurd hb1 (by decide)
    rw [pyIntParse, hstrip]
    simp only [if_neg hplus, if_neg hminus]
    cases hca : charToDigit c with
    | none =>
      have := hdig c (List.mem_cons_self c rest)
      rw [hca] at this
      cases this
    | some d =>
      rw [parseDigitsAux, hca] at h
      simp only [Nat.zero_mul, Nat.zero_add] at h
      rw [parseDigitsUnderscore, hca]
      dsimp only
      rw [parseDURun_eq_parseDigitsAux rest d
          (fun x hx => hdig x (List.mem_cons_of_mem c hx)), h]
      rfl

theorem pyIntParse_of_parsePyNat {s : String} {v : Nat}
    (h : parsePyNat s = some v) : pyIntParse s = some (v : Int) := by
  rw [parsePyNat] at h
  by_cases he : s.data.isEmpty
  · rw [if_pos he] at h
    cases h
  · rw [if_neg he] at h
    exact pyIntParse_of_parseDigitsAux (by simpa using he) h

theorem parsePyNat_none_of_pyIntParse_none {s : String}
    (h : pyIntParse s = none) : parsePyNat s = none := by
  cases hp : parsePyNat s with
  | none => rfl
  | some v =>
    rw [pyIntParse_of_parsePyNat hp] at h
    cases h

theorem read_write_checkpoint (o : Nat) (fs : FS) :
    read_checkpoint (write_checkpoint o fs) = o := by
  simp [read_checkpoint, write_checkpoint, parsePyNat_natToDecStr]

/-! ### Trace bookkeeping lemmas -/

theorem countRequests_append (a b : List Event) :
    countRequests (a ++ b) = countRequests a + countRequests b :=
  List.countP_append _ _ _

theorem countRetryMsgs_append (a b : List Event) :
    countRetryMsgs (a ++ b) = countRetryMsgs a + countRetryMsgs b :=
  List.countP_append _ _ _

theorem countClampWarns_append (a b : List Event) :
    countClampWarns (a ++ b) = countClampWarns a + countClampWarns b :=
  List.countP_append _ _ _

theorem requestOffsets_append (a b : List Event) :
    requestOffsets (a ++ b) = requestOffsets a ++ requestOffsets b :=
  List.filterMap_append _ _ _

theorem requestCounts_append (a b : List Event) :
    requestCounts (a ++ b) = requestCounts a ++ requestCounts b :=
  List.filterMap_append _ _ _

theorem mergedRecs_append (a b : List Event) :
    mergedRecs (a ++ b) = mergedRecs a ++ mergedRecs b :=
  List.filterMap_append _ _ _

/-! ### Equations for one loop iteration, by input shape -/

theorem stepPage_exc {c : Nat} {srv : Server} {o : Nat} {it : List Item} {fs : FS}
    (h : srv o c = .exc) :
    stepPage c srv o it fs = .next o it fs [.request o c, .retryMsg o] := by
  simp [stepPage, h]

theorem stepPage_errStatus {c : Nat} {srv : Server} {o : Nat} {it : List Item} {fs : FS}
    {status : Nat} {body : Body} (h : srv o c = .resp status body)
    (hst : 400 ≤ status ∧ status < 600) :
    stepPage c srv o it fs = .next o it fs [.request o c, .retryMsg o] := by
  simp [stepPage, h, hst]

theorem stepPage_malformed {c : Nat} {srv : Server} {o : Nat} {it : List Item} {fs : FS}
    {status : Nat} (h : srv o c = .resp status .malformed)
    (hst : ¬(400 ≤ status ∧ status < 600)) :
    stepPage c srv o it fs = .stop ⟨.raised, o, it, fs, [.request o c]⟩ := by
  simp [stepPage, h, hst]

theorem stepPage_empty {c : Nat} {srv : Server} {o : Nat} {it : List Item} {fs : FS}
    {status : Nat} {list? : Option (List Item)} {total? : Option String}
    (h : srv o c = .resp status (.json list? total?))
    (hst : ¬(400 ≤ status ∧ status < 600)) (hempty : list?.getD [] = []) :
    stepPage c srv o it fs = .stop ⟨.broke, o, it, fs, [.request o c]⟩ := by
  simp [stepPage, h, hst, hempty]

theorem stepPage_merge_totalNone {c : Nat} {srv : Server} {o : Nat} {it : List Item}
    {fs : FS} {status : Nat} {list? : Option (List Item)}
    (h : srv o c = .resp status (.json list? none))
    (hst : ¬(400 ≤ status ∧ status < 600)) (hne : list?.getD [] ≠ []) :
    stepPage c srv o it fs =
      .stop ⟨.broke, o + (list?.getD []).length, it ++ list?.getD [],
        write_checkpoint (o + (list?.getD []).length) fs,
        [.request o c, .merged (list?.getD []).length (o + (list?.getD []).length)
          (it ++ list?.getD []).length]⟩ := by
  have hbe : (list?.getD []).isEmpty = false := by simpa using hne
  simp [stepPage, h, hst, hbe]

theorem stepPage_merge_totalBad {c : Nat} {srv : Server} {o : Nat} {it : List Item}
    {fs : FS} {status : Nat} {list? : Option (List Item)} {ts : String}
    (h : srv o c = .resp status (.json list? (some ts)))
    (hst : ¬(400 ≤ status ∧ status < 600)) (hne : list?.getD [] ≠ [])
    (hts : parsePyNat ts = none) :
    stepPage c srv o it fs =
      .stop ⟨.raised, o + (list?.getD []).length, it ++ list?.getD [],
        write_checkpoint (o + (list?.getD []).length) fs,
        [.request o c, .merged (list?.getD []).length (o + (list?.getD []).length)
          (it ++ list?.getD []).length]⟩ := by
  have hbe : (list?.getD []).isEmpty = false := by simpa using hne
  simp [stepPage, h, hst, hbe, hts]

theorem stepPage_merge_totalLe {c : Nat} {srv : Server} {o : Nat} {it : List Item}
    {fs : FS} {status : Nat} {list? : Option (List Item)} {ts : String} {tot : Nat}
    (h : srv o c = .resp status (.json list? (some ts)))
    (hst : ¬(400 ≤ status ∧ status < 600)) (hne : list?.getD [] ≠ [])
    (hts : parsePyNat ts = some tot) (htot : tot ≤ o + (list?.getD []).length) :
    stepPage c srv o it fs =
      .stop ⟨.broke, o + (list?.getD []).length, it ++ list?.getD [],
        write_checkpoint (o + (list?.getD []).length) fs,
        [.request o c, .merged (list?.getD []).length (o + (list?.getD []).length)
          (it ++ list?.getD []).length]⟩ := by
  have hbe : (list?.getD []).isEmpty = false := by simpa using hne
  simp [stepPage, h, hst, hbe, hts, htot]

theorem stepPage_merge_totalGt {c : Nat} {srv : Server} {o : Nat} {it : List Item}
    {fs : FS} {status : Nat} {list? : Option (List Item)} {ts : String} {tot : Nat}
    (h : srv o c = .resp status (.json list? (some ts)))
    (hst : ¬(400 ≤ status ∧ status < 600)) (hne : list?.getD [] ≠ [])
    (hts : parsePyNat ts = some tot) (htot : ¬ tot ≤ o + (list?.getD []).length) :
    stepPage c srv o it fs =
      .next (o + (list?.getD []).length) (it ++ list?.getD [])
        (write_checkpoint (o + (list?.getD []).length) fs)
        [.request o c, .merged (list?.getD []).length (o + (list?.getD []).length)
          (it ++ list?.getD []).length] := by
  have hbe : (list?.getD []).isEmpty = false := by simpa using hne
  simp [stepPage, h, hst, hbe, hts, htot]

/-! ### Unfolding the loop one entry at a time -/

theorem fetchLoop_nil (c : Nat) (o : Nat) (it : List Item) (fs : FS) :
    fetchLoop c [] o it fs = ⟨.starved, o, it, fs, []⟩ := rfl

theorem fetchLoop_cons_next {c : Nat} {srv : Server} {rest : List Server}
    {o : Nat} {it : List Item} {fs : FS} {o2 : Nat} {it2 : List Item} {fs2 : FS}
    {evts : List Event} (h : stepPage c srv o it fs = .next o2 it2 fs2 evts) :
    fetchLoop c (srv :: rest) o it fs =
      { fetchLoop c rest o2 it2 fs2 with
        trace := evts ++ (fetchLoop c rest o2 it2 fs2).trace } := by
  simp [fetchLoop, h]

theorem fetchLoop_cons_stop {c : Nat} {srv : Server} {rest : List Server}
    {o : Nat} {it : List Item} {fs : FS} {r : RunResult}
    (h : stepPage c srv o it fs = .stop r) :
    fetchLoop c (srv :: rest) o it fs = r := by
  simp [fetchLoop, h]

/-! ### Trace values of the per-iteration event lists -/

theorem requestOffsets_retryEvts (o c : Nat) :
    requestOffsets [.request o c, .retryMsg o] = [o] := rfl

theorem requestOffsets_stopEvts (o c : Nat) :
    requestOffsets [.request o c] = [o] := rfl

theorem requestOffsets_mergeEvts (o c l o2 n : Nat) :
    requestOffsets [.request o c, .merged l o2 n] = [o] := rfl

theorem requestCounts_retryEvts (o c : Nat) :
    requestCounts [.request o c, .retryMsg o] = [c] := rfl

theorem requestCounts_stopEvts (o c : Nat) :
    requestCounts [.request o c] = [c] := rfl

theorem requestCounts_mergeEvts (o c l o2 n : Nat) :
    requestCounts [.request o c, .merged l o2 n] = [c] := rfl

theorem mergedRecs_retryEvts (o c : Nat) :
    mergedRecs [.request o c, .retryMsg o] = [] := rfl

theorem mergedRecs_stopEvts (o c : Nat) :
    mergedRecs [.request o c] = [] := rfl

theorem mergedRecs_mergeEvts (o c l o2 n : Nat) :
    mergedRecs [.request o c, .merged l o2 n] = [(l, o2, n)] := rfl

theorem countClampWarns_retryEvts (o c : Nat) :
    countClampWarns [.request o c, .retryMsg o] = 0 := rfl

theorem countClampWarns_stopEvts (o c : Nat) :
    countClampWarns [.request o c] = 0 := rfl

theorem countClampWarns_mergeEvts (o c l o2 n : Nat) :
    countClampWarns [.request o c, .merged l o2 n] = 0 := rfl

theorem countRequests_retryEvts (o c : Nat) :
    countRequests [.request o c, .retryMsg o] = 1 := rfl

theorem countRequests_stopEvts (o c : Nat) :
    countRequests [.request o c] = 1 := rfl

theorem countRequests_mergeEvts (o c l o2 n : Nat) :
    countRequests [.request o c, .merged l o2 n] = 1 := rfl

theorem countRetryMsgs_retryEvts (o c : Nat) :
    countRetryMsgs [.request o c, .retryMsg o] = 1 := rfl

theorem mergedOkB_nil (O prev : Nat) : mergedOkB O prev [] = true := rfl

theorem mergedOkB_cons_eq_true {O prev l o n : Nat} {rest : List (Nat × Nat × Nat)}
    (h1 : 1 ≤ l) (h2 : o = prev + l) (h3 : n + O = o)
    (h4 : mergedOkB O o rest = true) :
    mergedOkB O prev ((l, o, n) :: rest) = true := by
  subst h2
  simp [mergedOkB, h1, h3, h4]

/-! ### Shape of one loop iteration -/

/-- Every iteration of the loop body does one of three things: it retries
with the state untouched, it ends the run with the state untouched, or it
merges a non-empty batch (advancing offset and checkpoint by the batch
length) and then either continues or ends the run. -/
theorem stepPage_shape (c : Nat) (srv : Server) (o : Nat) (it : List Item) (fs : FS) :
    stepPage c srv o it fs = .next o it fs [.request o c, .retryMsg o]
    ∨ (∃ e, stepPage c srv o it fs = .stop ⟨e, o, it, fs, [.request o c]⟩)
    ∨ (∃ batch : List Item, batch ≠ [] ∧
        (stepPage c srv o it fs =
            .next (o + batch.length) (it ++ batch)
              (write_checkpoint (o + batch.length) fs)
              [.request o c, .merged batch.length (o + batch.length) (it ++ batch).length]
         ∨ ∃ e, stepPage c srv o it fs =
            .stop ⟨e, o + batch.length, it ++ batch,
              write_checkpoint (o + batch.length) fs,
              [.request o c, .merged batch.length (o + batch.length) (it ++ batch).length]⟩)) := by
  cases hout : srv o c with
  | exc => exact Or.inl (stepPage_exc hout)
  | resp status body =>
    by_cases hst : 400 ≤ status ∧ status < 600
    · exact Or.inl (stepPage_errStatus hout hst)
    · cases body with
      | malformed => exact Or.inr (Or.inl ⟨.raised, stepPage_malformed hout hst⟩)
      | json list? total? =>
        by_cases hempty : list?.getD [] = []
        · exact Or.inr (Or.inl ⟨.broke, stepPage_empty hout hst hempty⟩)
        · refine Or.inr (Or.inr ⟨list?.getD [], hempty, ?_⟩)
          cases total? with
          | none => exact Or.inr ⟨.broke, stepPage_merge_totalNone hout hst hempty⟩
          | some ts =>
            cases hts : parsePyNat ts with
            | none => exact Or.inr ⟨.raised, stepPage_merge_totalBad hout hst hempty hts⟩
            | some tot =>
              by_cases htot : tot ≤ o + (list?.getD []).length
              · exact Or.inr ⟨.broke, stepPage_merge_totalLe hout hst hempty hts htot⟩
              · exact Or.inl (stepPage_merge_totalGt hout hst hempty hts htot)

/-! ### Loop invariants -/

/-- Invariants of the fetch loop, from any state: every request is issued
at an offset at least the entry offset; the number of items gained equals
the offset gained; the offset never decreases; every request carries the
loop's (clamped) page size; the loop itself prints no clamp warning; and
from any origin offset `O` consistent with the entry state, the merges
chain correctly (positive page length, offset advanced by exactly the
page length, accumulated length equal to offset minus `O`). -/
theorem fetchLoop_invariants (c : Nat) (outs : List Server) :
    ∀ (o : Nat) (it : List Item) (fs : FS),
      (∀ x ∈ requestOffsets (fetchLoop c outs o it fs).trace, o ≤ x)
      ∧ (fetchLoop c outs o it fs).items.length + o
          = (fetchLoop c outs o it fs).offset + it.length
      ∧ o ≤ (fetchLoop c outs o it fs).offset
      ∧ (∀ x ∈ requestCounts (fetchLoop c outs o it fs).trace, x = c)
      ∧ countClampWarns (fetchLoop c outs o it fs).trace = 0
      ∧ (∀ O : Nat, it.length + O = o →
          mergedOkB O o (mergedRecs (fetchLoop c outs o it fs).trace) = true) := by
  induction outs with
  | nil =>
    intro o it fs
    rw [fetchLoop_nil]
    dsimp only
    exact ⟨by simp [requestOffsets], by omega, Nat.le_refl o,
      by simp [requestCounts], rfl, fun O _ => rfl⟩
  | cons srv rest ih =>
    intro o it fs
    rcases stepPage_shape c srv o it fs with hshape | ⟨e, hshape⟩ | ⟨batch, hb, hshape⟩
    · -- retried: state unchanged, events [request o c, retryMsg o]
      rw [fetchLoop_cons_next hshape]
      dsimp only
      obtain ⟨ho, hlen, hmono, hcnt, hclamp, hmerge⟩ := ih o it fs
      refine ⟨?_, hlen, hmono, ?_, ?_, ?_⟩
      · intro x hx
        rw [requestOffsets_append, requestOffsets_retryEvts] at hx
        rcases List.mem_append.mp hx with hx | hx
        · rcases List.mem_singleton.mp hx with rfl
          exact Nat.le_refl x
        · exact ho x hx
      · intro x hx
        rw [requestCounts_append, requestCounts_retryEvts] at hx
        rcases List.mem_append.mp hx with hx | hx
        · exact List.mem_singleton.mp hx
        · exact hcnt x hx
      · rw [countClampWarns_append, countClampWarns_retryEvts]
        simpa using hclamp
      · intro O hO
        rw [mergedRecs_append, mergedRecs_retryEvts, List.nil_append]
        exact hmerge O hO
    · -- the run ends here with the state unchanged
      rw [fetchLoop_cons_stop hshape]
      dsimp only
      refine ⟨?_, by omega, Nat.le_refl o, ?_, countClampWarns_stopEvts o c, ?_⟩
      · intro x hx
        rw [requestOffsets_stopEvts] at hx
        rcases List.mem_singleton.mp hx with rfl
        exact Nat.le_refl x
      · intro x hx
        rw [requestCounts_stopEvts] at hx
        exact List.mem_singleton.mp hx
      · intro O hO
        rw [mergedRecs_stopEvts]
        rfl
    · -- a non-empty batch is merged, then the run continues or ends
      have hlenpos : 1 ≤ batch.length := by
        cases batch with
        | nil => exact absurd rfl hb
        | cons a l => simp
      rcases hshape with hshape | ⟨e, hshape⟩
      · -- merged, then the loop continues
        rw [fetchLoop_cons_next hshape]
        dsimp only
        obtain ⟨ho, hlen, hmono, hcnt, hclamp, hmerge⟩ :=
          ih (o + batch.length) (it ++ batch) (write_checkpoint (o + batch.length) fs)
        simp only [List.length_append] at hlen
        refine ⟨?_, by omega, by omega, ?_, ?_, ?_⟩
        · intro x hx
          rw [requestOffsets_append, requestOffsets_mergeEvts] at hx
          rcases List.mem_append.mp hx with hx | hx
          · rcases List.mem_singleton.mp hx with rfl
            exact Nat.le_refl x
          · have := ho x hx
            omega
        · intro x hx
          rw [requestCounts_append, requestCounts_mergeEvts] at hx
          rcases List.mem_append.mp hx with hx | hx
          · exact List.mem_singleton.mp hx
          · exact hcnt x hx
        · rw [countClampWarns_append, countClampWarns_mergeEvts]
          simpa using hclamp
        · intro O hO
          have hO2 : (it ++ batch).length + O = o + batch.length := by
            simp only [List.length_append]
            omega
          have hrec := hmerge O hO2
          rw [mergedRecs_append, mergedRecs_mergeEvts, List.singleton_append]
          exact mergedOkB_cons_eq_true hlenpos rfl hO2 hrec
      · -- merged, then the run ends
        rw [fetchLoop_cons_stop hshape]
        dsimp only
        refine ⟨?_, by simp only [List.length_append]; omega, by omega, ?_,
          countClampWarns_mergeEvts o c batch.length (o + batch.length) (it ++ batch).length, ?_⟩
        · intro x hx
          rw [requestOffsets_mergeEvts] at hx
          rcases List.mem_singleton.mp hx with rfl
          omega
        · intro x hx
          rw [requestCounts_mergeEvts] at hx
          exact List.mem_singleton.mp hx
        · intro O hO
          rw [mergedRecs_mergeEvts]
          have hO2 : (it ++ batch).length + O = o + batch.length := by
            simp only [List.length_append]
            omega
          exact mergedOkB_cons_eq_true hlenpos rfl hO2 rfl

/-! ### Page-count arithmetic: the ceiling division `⌈d / P⌉ = (d + P - 1) / P` -/

theorem pagesLeft_eq_one {d P : Nat} (h1 : 1 ≤ d) (h2 : d ≤ P) :
    (d + P - 1) / P = 1 :=
  Nat.div_eq_of_lt_le (by omega) (by omega)

theorem pagesLeft_step {d P : Nat} (hP : 1 ≤ P) (h : P < d) :
    (d + P - 1) / P = (d - P + P - 1) / P + 1 := by
  have he : d + P - 1 = (d - P + P - 1) + P := by omega
  rw [he, Nat.add_div_right _ (by omega)]

/-! ### Behaviour of the loop against the simulated `N`-item collection -/

/-- Running the loop against the simulated server from offset `o < N`
with enough attempts: it `break`s via the total check after exactly
`⌈(N - o) / P⌉` requests, returns the remaining item identifiers, and
leaves the checkpoint recording `N`. -/
theorem fetchLoop_simServer (N P : Nat) (hP : 1 ≤ P) :
    ∀ (m o : Nat) (it : List Item) (fs : FS), o < N → (N - o + P - 1) / P ≤ m →
      (fetchLoop P (List.replicate m (simServer N)) o it fs).exit = .broke
      ∧ (fetchLoop P (List.replicate m (simServer N)) o it fs).offset = N
      ∧ (fetchLoop P (List.replicate m (simServer N)) o it fs).items
          = it ++ List.range' o (N - o)
      ∧ (fetchLoop P (List.replicate m (simServer N)) o it fs).fs = write_checkpoint N fs
      ∧ countRequests (fetchLoop P (List.replicate m (simServer N)) o it fs).trace
          = (N - o + P - 1) / P := by
  intro m
  induction m with
  | zero =>
    intro o it fs ho hm
    exfalso
    have hpos : 0 < (N - o + P - 1) / P := Nat.div_pos (by omega) (by omega)
    omega
  | succ m ih =>
    intro o it fs ho hm
    have hsrv : simServer N o P
        = .resp 200 (.json (some (List.range' o (min P (N - o)))) (some (natToDecStr N))) := rfl
    have hst : ¬(400 ≤ 200 ∧ 200 < 600) := by omega
    have hne : (some (List.range' o (min P (N - o)))).getD [] ≠ [] := by
      simp [List.range'_eq_nil]
      omega
    have hts : parsePyNat (natToDecStr N) = some N := parsePyNat_natToDecStr N
    have hBlen : ((some (List.range' o (min P (N - o)))).getD []).length = min P (N - o) := by
      simp
    by_cases hcase : N - o ≤ P
    · -- final page: the merge reaches the total, so the loop breaks
      have htot : N ≤ o + ((some (List.range' o (min P (N - o)))).getD []).length := by
        rw [hBlen]
        omega
      rw [List.replicate_succ,
        fetchLoop_cons_stop (stepPage_merge_totalLe hsrv hst hne hts htot)]
      dsimp only
      have hmin : min P (N - o) = N - o := by omega
      refine ⟨rfl, ?_, ?_, ?_, ?_⟩
      · rw [hBlen]
        omega
      · simp [hmin]
      · have hoff : o + ((some (List.range' o (min P (N - o)))).getD []).length = N := by
          rw [hBlen]
          omega
        rw [hoff]
      · rw [countRequests_mergeEvts, pagesLeft_eq_one (by omega) hcase]
    · -- middle page: the merge stays below the total, so the loop continues
      have hmin : min P (N - o) = P := by omega
      have htot : ¬ N ≤ o + ((some (List.range' o (min P (N - o)))).getD []).length := by
        rw [hBlen]
        omega
      rw [List.replicate_succ,
        fetchLoop_cons_next (stepPage_merge_totalGt hsrv hst hne hts htot)]
      dsimp only
      have hB : (some (List.range' o (min P (N - o)))).getD [] = List.range' o P := by
        simp [hmin]
      rw [hB]
      have hPlen : (List.range' o P).length = P := by simp
      rw [hPlen]
      have hstep : (N - o + P - 1) / P = (N - (o + P) + P - 1) / P + 1 := by
        have h1 : N - (o + P) = N - o - P := by omega
        rw [h1]
        exact pagesLeft_step hP (by omega)
      obtain ⟨e1, e2, e3, e4, e5⟩ :=
        ih (o + P) (it ++ List.range' o P) (write_checkpoint (o + P) fs)
          (by omega) (by omega)
      refine ⟨e1, e2, ?_, ?_, ?_⟩
      · rw [e3, List.append_assoc, List.range'_append_1]
        rw [show N - (o + P) + P = N - o from by omega]
      · rw [e4]
        rfl
      · rw [countRequests_append, countRequests_mergeEvts, e5]
        omega

/-! ### Behaviour of the loop on retried outcomes -/

/-- The events of `n` consecutive swallowed failures at offset `o`. -/
def retryEvts (o c : Nat) : Nat → List Event
  | 0 => []
  | n + 1 => Event.request o c :: Event.retryMsg o :: retryEvts o c n

theorem countRequests_retryEvtsN (o c : Nat) :
    ∀ n, countRequests (retryEvts o c n) = n := by
  intro n
  induction n with
  | zero => rfl
  | succ n ih =>
    simp [retryEvts, countRequests, List.countP_cons, isRequestEv] at ih ⊢
    omega

theorem countRetryMsgs_retryEvtsN (o c : Nat) :
    ∀ n, countRetryMsgs (retryEvts o c n) = n := by
  intro n
  induction n with
  | zero => rfl
  | succ n ih =>
    simp [retryEvts, countRetryMsgs, List.countP_cons, isRetryEv] at ih ⊢
    omega

/-- A prefix of outcomes that `raise_for_status`/`_post` failures make the
`except` clause swallow leaves the loop state untouched: the run continues
exactly as if the prefix were absent, with `pre.length` extra
request/retry-message pairs in front of the trace. -/
theorem fetchLoop_retriedStream (c : Nat) :
    ∀ (pre : List PostOutcome), (∀ x ∈ pre, isRetried x = true) →
    ∀ (rest : List Server) (o : Nat) (it : List Item) (fs : FS),
      fetchLoop c (pre.map constServer ++ rest) o it fs
        = { fetchLoop c rest o it fs with
            trace := retryEvts o c pre.length ++ (fetchLoop c rest o it fs).trace } := by
  intro pre
  induction pre with
  | nil =>
    intro _ rest o it fs
    rfl
  | cons x pre ih =>
    intro hpre rest o it fs
    have hx : isRetried x = true := hpre x (List.mem_cons_self x pre)
    have hstep : stepPage c (constServer x) o it fs
        = .next o it fs [.request o c, .retryMsg o] := by
      cases x with
      | exc => exact stepPage_exc rfl
      | resp s b =>
        have hs : 400 ≤ s ∧ s < 600 := by simpa [isRetried] using hx
        exact stepPage_errStatus rfl hs
    rw [List.map_cons, List.cons_append, fetchLoop_cons_next hstep,
      ih (fun y hy => hpre y (List.mem_cons_of_mem x hy)) rest o it fs]
    rfl

/-! ### Transport-level retry exhaustion -/

theorem sessionPostAux_all_forcelist (attempt : Nat → Nat × Body)
    (h : ∀ i, (attempt i).1 ∈ STATUS_FORCELIST) :
    ∀ (rem i : Nat), sessionPostAux attempt i rem = attempt (i + rem) := by
  intro rem
  induction rem with
  | zero => intro i; rfl
  | succ rem ih =>
    intro i
    rw [sessionPostAux]
    simp only [h i, if_pos]
    rw [ih (i + 1)]
    congr 1
    omega

/-- If every transport attempt yields a forcelisted status, the session
gives up after `RETRY_TOTAL` retries and hands back the last (the sixth)
response instead of raising. -/
theorem sessionPost_all_forcelist (attempt : Nat → Nat × Body)
    (h : ∀ i, (attempt i).1 ∈ STATUS_FORCELIST) :
    sessionPost attempt = attempt RETRY_TOTAL := by
  rw [sessionPost, sessionPostAux_all_forcelist attempt h RETRY_TOTAL 0, Nat.zero_add]

/-! ### The post-loop epilogue and the entry point -/

theorem finalizeRun_of_broke {r : RunResult} (h : r.exit = .broke) :
    finalizeRun r = { r with fs := ⟨none⟩ } := by
  simp [finalizeRun, h, unlink_checkpoint]

theorem finalizeRun_of_not_broke {r : RunResult} (h : r.exit ≠ .broke) :
    finalizeRun r = r := by
  cases hr : r.exit with
  | broke => exact absurd hr h
  | raised => simp [finalizeRun, hr]
  | starved => simp [finalizeRun, hr]

/-- Equation for `fetch_pocket_items`: clamp, read the checkpoint, loop from
an empty accumulator, prepend the clamp warning, run the epilogue. -/
theorem fetch_pocket_items_eq (b : Nat) (outs : List Server) (fs0 : FS) :
    fetch_pocket_items b outs fs0
      = finalizeRun
          { fetchLoop (if b > MAX_BATCH then MAX_BATCH else b) outs
              (read_checkpoint fs0) [] fs0 with
            trace := (if b > MAX_BATCH then [Event.clampWarn b] else [])
              ++ (fetchLoop (if b > MAX_BATCH then MAX_BATCH else b) outs
                  (read_checkpoint fs0) [] fs0).trace } := rfl

theorem fetch_pocket_items_le {b : Nat} (hb : b ≤ MAX_BATCH) (outs : List Server)
    (fs0 : FS) :
    fetch_pocket_items b outs fs0
      = finalizeRun (fetchLoop b outs (read_checkpoint fs0) [] fs0) := by
  rw [fetch_pocket_items_eq]
  have hnb : ¬ b > MAX_BATCH := by omega
  simp [hnb]

theorem fetch_pocket_items_gt {b : Nat} (hb : MAX_BATCH < b) (outs : List Server)
    (fs0 : FS) :
    fetch_pocket_items b outs fs0
      = finalizeRun
          { fetchLoop MAX_BATCH outs (read_checkpoint fs0) [] fs0 with
            trace := Event.clampWarn b ::
              (fetchLoop MAX_BATCH outs (read_checkpoint fs0) [] fs0).trace } := by
  rw [fetch_pocket_items_eq]
  simp [hb]

theorem finalizeRun_exit (r : RunResult) : (finalizeRun r).exit = r.exit := by
  cases hr : r.exit <;> simp [finalizeRun, hr]

theorem finalizeRun_offset (r : RunResult) : (finalizeRun r).offset = r.offset := by
  cases hr : r.exit <;> simp [finalizeRun, hr]

theorem finalizeRun_items (r : RunResult) : (finalizeRun r).items = r.items := by
  cases hr : r.exit <;> simp [finalizeRun, hr]

theorem finalizeRun_trace (r : RunResult) : (finalizeRun r).trace = r.trace := by
  cases hr : r.exit <;> simp [finalizeRun, hr]

theorem requestOffsets_clampEvts (b : Nat) :
    requestOffsets (if b > MAX_BATCH then [Event.clampWarn b] else []) = [] := by
  split <;> rfl

theorem mergedRecs_clampEvts (b : Nat) :
    mergedRecs (if b > MAX_BATCH then [Event.clampWarn b] else []) = [] := by
  split <;> rfl

/-! ## The claims -/

/-- Claim C1 (corrected): the claim quantifies over every simulated
collection of `N` items, but at `N = 0` the loop still issues one page
request (which returns the empty page and breaks), while `⌈0/P⌉ = 0`:
with `P = 30`, the run terminates normally after `1 ≠ ⌈0/30⌉` successful
page fetches. -/
theorem claim_C1_counterexample :
    countRequests (fetch_pocket_items 30 (List.replicate 1 (simServer 0)) ⟨none⟩).trace = 1
    ∧ (0 + 30 - 1) / 30 = 0
    ∧ (fetch_pocket_items 30 (List.replicate 1 (simServer 0)) ⟨none⟩).exit = .broke
    ∧ (fetch_pocket_items 30 (List.replicate 1 (simServer 0)) ⟨none⟩).items = [] := by
  decide

/-- Claim C1 (amended): for every simulated remote collection of `N ≥ 1`
items and every page size `1 ≤ P ≤ 30`, `fetch_pocket_items` started with
no checkpoint terminates normally after exactly `⌈N/P⌉` successful page
fetches, returns exactly the `N` items, ends with offset `N`, and clears
the checkpoint; for `N = 0` it instead issues one fetch of an empty page
(see the counterexample).  In particular, for `N = 65`, `P = 30` it
fetches pages at offsets 0, 30, 60 with sizes 30, 30, 5, ends with offset
65, clears the checkpoint, and returns 65 items. -/
theorem claim_C1 :
    (∀ (N P m : Nat), 1 ≤ P → P ≤ 30 → 1 ≤ N → (N + P - 1) / P ≤ m →
      (fetch_pocket_items P (List.replicate m (simServer N)) ⟨none⟩).exit = .broke
      ∧ countRequests (fetch_pocket_items P (List.replicate m (simServer N)) ⟨none⟩).trace
          = (N + P - 1) / P
      ∧ (fetch_pocket_items P (List.replicate m (simServer N)) ⟨none⟩).items
          = List.range' 0 N
      ∧ (fetch_pocket_items P (List.replicate m (simServer N)) ⟨none⟩).offset = N
      ∧ (fetch_pocket_items P (List.replicate m (simServer N)) ⟨none⟩).fs = ⟨none⟩)
    ∧ requestOffsets (fetch_pocket_items 30 (List.replicate 3 (simServer 65)) ⟨none⟩).trace
        = [0, 30, 60]
    ∧ mergedSizes (fetch_pocket_items 30 (List.replicate 3 (simServer 65)) ⟨none⟩).trace
        = [30, 30, 5]
    ∧ (fetch_pocket_items 30 (List.replicate 3 (simServer 65)) ⟨none⟩).offset = 65
    ∧ (fetch_pocket_items 30 (List.replicate 3 (simServer 65)) ⟨none⟩).fs = ⟨none⟩
    ∧ (fetch_pocket_items 30 (List.replicate 3 (simServer 65)) ⟨none⟩).items.length = 65 := by
  constructor
  · intro N P m hP1 hP30 hN hm
    rw [fetch_pocket_items_le (show P ≤ MAX_BATCH from hP30)]
    have hread : read_checkpoint ⟨none⟩ = 0 := rfl
    rw [hread]
    have hm0 : (N - 0 + P - 1) / P ≤ m := by
      rw [Nat.sub_zero]
      exact hm
    obtain ⟨e1, e2, e3, e4, e5⟩ :=
      fetchLoop_simServer N P hP1 m 0 [] ⟨none⟩ (by omega) hm0
    rw [finalizeRun_of_broke e1]
    refine ⟨e1, ?_, ?_, e2, rfl⟩
    · rw [e5, Nat.sub_zero]
    · rw [e3, Nat.sub_zero, List.nil_append]
  · exact ⟨by decide, by decide, by decide, by decide, by decide⟩

theorem claim_C1_witness :
    (fetch_pocket_items 2 (List.replicate 3 (simServer 5)) ⟨none⟩).exit = .broke
    ∧ countRequests (fetch_pocket_items 2 (List.replicate 3 (simServer 5)) ⟨none⟩).trace
        = (5 + 2 - 1) / 2
    ∧ (fetch_pocket_items 2 (List.replicate 3 (simServer 5)) ⟨none⟩).items
        = List.range' 0 5
    ∧ (fetch_pocket_items 2 (List.replicate 3 (simServer 5)) ⟨none⟩).offset = 5
    ∧ (fetch_pocket_items 2 (List.replicate 3 (simServer 5)) ⟨none⟩).fs = ⟨none⟩ :=
  claim_C1.1 5 2 3 (by decide) (by decide) (by decide) (by decide)

theorem countRequests_clampEvts (b : Nat) :
    countRequests (if b > MAX_BATCH then [Event.clampWarn b] else []) = 0 := by
  split <;> rfl

theorem countRetryMsgs_clampEvts (b : Nat) :
    countRetryMsgs (if b > MAX_BATCH then [Event.clampWarn b] else []) = 0 := by
  split <;> rfl

/-- Claim C2 (corrected): the claim says an endpoint that always answers
with a retryable status makes the run end in a failed state after the
configured maximum number of attempts (the session's 5 transport
retries).  In the code, `raise_for_status`'s `HTTPError` is itself a
`RequestException`, so the `except` clause catches it, sleeps 5 s and
continues: here, after 7 call-site attempts — more than the configured
maximum — against a constant-500 endpoint, the run has not failed and is
still looping, with the checkpoint untouched. -/
theorem claim_C2_counterexample :
    RETRY_TOTAL < 7
    ∧ (fetch_pocket_items 30
        (List.replicate 7 (constServer (.resp 500 (.json none none)))) ⟨some "3"⟩).exit
        = .starved
    ∧ countRequests (fetch_pocket_items 30
        (List.replicate 7 (constServer (.resp 500 (.json none none)))) ⟨some "3"⟩).trace = 7
    ∧ countRetryMsgs (fetch_pocket_items 30
        (List.replicate 7 (constServer (.resp 500 (.json none none)))) ⟨some "3"⟩).trace = 7
    ∧ (fetch_pocket_items 30
        (List.replicate 7 (constServer (.resp 500 (.json none none)))) ⟨some "3"⟩).fs
        = ⟨some "3"⟩ := by
  decide

/-- Claim C2 (amended): with an endpoint that always returns a retryable
status, the transport layer does stop after the configured maximum — with
every attempt's status in the forcelist, the session returns the
`RETRY_TOTAL`-th (sixth) response instead of raising — but the call site
then catches the `HTTPError` from `raise_for_status` and retries with a
5 s delay indefinitely: for every number `m` of call-site attempts the
run is still looping (never a failed/raised state), has issued `m` POSTs
and printed `m` retry warnings, has accumulated nothing, and has left the
checkpoint byte-for-byte unchanged. -/
theorem claim_C2 :
    (∀ attempt : Nat → Nat × Body, (∀ i, (attempt i).1 ∈ STATUS_FORCELIST) →
        sessionPost attempt = attempt RETRY_TOTAL)
    ∧ (∀ (s : Nat) (body : Body) (m b : Nat) (fs : FS), s ∈ STATUS_FORCELIST →
        (fetch_pocket_items b (List.replicate m (constServer (.resp s body))) fs).exit
            = .starved
        ∧ (fetch_pocket_items b (List.replicate m (constServer (.resp s body))) fs).fs = fs
        ∧ (fetch_pocket_items b (List.replicate m (constServer (.resp s body))) fs).offset
            = read_checkpoint fs
        ∧ (fetch_pocket_items b (List.replicate m (constServer (.resp s body))) fs).items
            = []
        ∧ countRequests (fetch_pocket_items b
            (List.replicate m (constServer (.resp s body))) fs).trace = m
        ∧ countRetryMsgs (fetch_pocket_items b
            (List.replicate m (constServer (.resp s body))) fs).trace = m) := by
  refine ⟨sessionPost_all_forcelist, ?_⟩
  intro s body m b fs hs
  have hsrange : 400 ≤ s ∧ s < 600 := by
    fin_cases hs <;> omega
  have hpre : ∀ x ∈ List.replicate m (PostOutcome.resp s body), isRetried x = true := by
    intro x hx
    rw [List.eq_of_mem_replicate hx]
    simpa [isRetried] using hsrange
  have hmap : List.replicate m (constServer (PostOutcome.resp s body))
      = (List.replicate m (PostOutcome.resp s body)).map constServer ++ [] := by
    rw [List.map_replicate, List.append_nil]
  rw [fetch_pocket_items_eq, hmap,
    fetchLoop_retriedStream _ _ hpre [] (read_checkpoint fs) [] fs, fetchLoop_nil]
  rw [finalizeRun_of_not_broke (by simp)]
  refine ⟨rfl, rfl, rfl, rfl, ?_, ?_⟩
  · rw [countRequests_append, countRequests_clampEvts, countRequests_append,
      countRequests_retryEvtsN, List.length_replicate]
    simp [countRequests]
  · rw [countRetryMsgs_append, countRetryMsgs_clampEvts, countRetryMsgs_append,
      countRetryMsgs_retryEvtsN, List.length_replicate]
    simp [countRetryMsgs]

theorem claim_C2_witness :
    (fetch_pocket_items 30
        (List.replicate 4 (constServer (.resp 502 (.json (some [1]) none)))) ⟨some "9"⟩).exit
        = .starved
    ∧ (fetch_pocket_items 30
        (List.replicate 4 (constServer (.resp 502 (.json (some [1]) none)))) ⟨some "9"⟩).fs
        = ⟨some "9"⟩
    ∧ (fetch_pocket_items 30
        (List.replicate 4 (constServer (.resp 502 (.json (some [1]) none)))) ⟨some "9"⟩).offset
        = read_checkpoint ⟨some "9"⟩
    ∧ (fetch_pocket_items 30
        (List.replicate 4 (constServer (.resp 502 (.json (some [1]) none)))) ⟨some "9"⟩).items
        = []
    ∧ countRequests (fetch_pocket_items 30
        (List.replicate 4 (constServer (.resp 502 (.json (some [1]) none)))) ⟨some "9"⟩).trace
        = 4
    ∧ countRetryMsgs (fetch_pocket_items 30
        (List.replicate 4 (constServer (.resp 502 (.json (some [1]) none)))) ⟨some "9"⟩).trace
        = 4 :=
  claim_C2.2 502 (.json (some [1]) none) 4 30 ⟨some "9"⟩ (by decide)

/-- Claim C4 (confirmed): with `O` the offset read from the checkpoint at
run start, every page request of the run is issued at an offset `≥ O`
(offsets only ever advance), and the accumulated collection starts empty,
so the run's final accumulation accounts exactly for the offsets gained
past `O`: `O + |items| = final offset` — items counted by the resumed
offset are never re-added. -/
theorem claim_C4 :
    ∀ (b : Nat) (outs : List Server) (fs : FS),
      (∀ x ∈ requestOffsets (fetch_pocket_items b outs fs).trace,
        read_checkpoint fs ≤ x)
      ∧ read_checkpoint fs + (fetch_pocket_items b outs fs).items.length
          = (fetch_pocket_items b outs fs).offset := by
  intro b outs fs
  obtain ⟨ho, hlen, hmono, _, _, _⟩ :=
    fetchLoop_invariants (if b > MAX_BATCH then MAX_BATCH else b) outs
      (read_checkpoint fs) [] fs
  rw [fetch_pocket_items_eq]
  constructor
  · intro x hx
    rw [finalizeRun_trace] at hx
    dsimp only at hx
    rw [requestOffsets_append, requestOffsets_clampEvts, List.nil_append] at hx
    exact ho x hx
  · rw [finalizeRun_items, finalizeRun_offset]
    dsimp only
    simp only [List.length_nil] at hlen
    omega

theorem claim_C4_witness :
    (read_checkpoint ⟨some "2"⟩ ≤ 2
      ∧ read_checkpoint ⟨some "2"⟩
          + (fetch_pocket_items 30
              [constServer (.resp 200 (.json (some [5, 6]) none))] ⟨some "2"⟩).items.length
          = (fetch_pocket_items 30
              [constServer (.resp 200 (.json (some [5, 6]) none))] ⟨some "2"⟩).offset) :=
  ⟨(claim_C4 30 [constServer (.resp 200 (.json (some [5, 6]) none))] ⟨some "2"⟩).1
      2 (by decide),
   (claim_C4 30 [constServer (.resp 200 (.json (some [5, 6]) none))] ⟨some "2"⟩).2⟩

/-- Claim C5 (confirmed): when successful responses omit the total-count
field, `int(data.get("total", offset))` falls back to the just-advanced
offset, so `offset >= total_available` holds immediately: after any
run of swallowed failures, the first successful non-empty page ends the
loop, the checkpoint is deleted, and exactly that page's items are
returned — no matter what the server still holds (`rest` is arbitrary). -/
theorem claim_C5 :
    ∀ (pre : List PostOutcome) (b : Nat) (fs : FS) (s : Nat)
      (batch : List Item) (rest : List Server),
      (∀ x ∈ pre, isRetried x = true) → s < 400 → batch ≠ [] →
      (fetch_pocket_items b
          (pre.map constServer ++ constServer (.resp s (.json (some batch) none)) :: rest)
          fs).exit = .broke
      ∧ (fetch_pocket_items b
          (pre.map constServer ++ constServer (.resp s (.json (some batch) none)) :: rest)
          fs).items = batch
      ∧ (fetch_pocket_items b
          (pre.map constServer ++ constServer (.resp s (.json (some batch) none)) :: rest)
          fs).offset = read_checkpoint fs + batch.length
      ∧ (fetch_pocket_items b
          (pre.map constServer ++ constServer (.resp s (.json (some batch) none)) :: rest)
          fs).fs = ⟨none⟩ := by
  intro pre b fs s batch rest hpre hs hb
  have hstep : stepPage (if b > MAX_BATCH then MAX_BATCH else b)
      (constServer (.resp s (.json (some batch) none))) (read_checkpoint fs) [] fs
      = .stop ⟨.broke, read_checkpoint fs + batch.length, [] ++ batch,
          write_checkpoint (read_checkpoint fs + batch.length) fs,
          [.request (read_checkpoint fs) (if b > MAX_BATCH then MAX_BATCH else b),
           .merged batch.length (read_checkpoint fs + batch.length) ([] ++ batch).length]⟩ :=
    stepPage_merge_totalNone
      (show constServer (PostOutcome.resp s (Body.json (some batch) none))
          (read_checkpoint fs) (if b > MAX_BATCH then MAX_BATCH else b)
          = PostOutcome.resp s (Body.json (some batch) none) from rfl)
      (by omega) (by simpa using hb)
  rw [fetch_pocket_items_eq,
    fetchLoop_retriedStream _ pre hpre _ (read_checkpoint fs) [] fs,
    fetchLoop_cons_stop hstep]
  rw [finalizeRun_of_broke (by rfl)]
  refine ⟨rfl, ?_, rfl, rfl⟩
  dsimp only
  simp

theorem claim_C5_witness :
    (fetch_pocket_items 50
        ([PostOutcome.exc].map constServer
          ++ constServer (.resp 200 (.json (some [3, 4]) none)) :: [constServer .exc])
        ⟨some "7"⟩).exit = .broke
    ∧ (fetch_pocket_items 50
        ([PostOutcome.exc].map constServer
          ++ constServer (.resp 200 (.json (some [3, 4]) none)) :: [constServer .exc])
        ⟨some "7"⟩).items = [3, 4]
    ∧ (fetch_pocket_items 50
        ([PostOutcome.exc].map constServer
          ++ constServer (.resp 200 (.json (some [3, 4]) none)) :: [constServer .exc])
        ⟨some "7"⟩).offset = read_checkpoint ⟨some "7"⟩ + [3, 4].length
    ∧ (fetch_pocket_items 50
        ([PostOutcome.exc].map constServer
          ++ constServer (.resp 200 (.json (some [3, 4]) none)) :: [constServer .exc])
        ⟨some "7"⟩).fs = ⟨none⟩ :=
  claim_C5 [PostOutcome.exc] 50 ⟨some "7"⟩ 200 [3, 4] [constServer .exc]
    (by decide) (by decide) (by decide)

/-- Claim C6 (confirmed): for every run, the sequence of successful page
merges chains correctly from the offset `O` read at run start: each merge
has a positive page length, advances the offset by exactly the number of
items in the page just retrieved (so the offset never decreases within a
run), and right after each merge-and-checkpoint the accumulated
collection holds exactly `offset − O` items. -/
theorem claim_C6 :
    ∀ (b : Nat) (outs : List Server) (fs : FS),
      mergedOkB (read_checkpoint fs) (read_checkpoint fs)
        (mergedRecs (fetch_pocket_items b outs fs).trace) = true := by
  intro b outs fs
  obtain ⟨_, _, _, _, _, hmerge⟩ :=
    fetchLoop_invariants (if b > MAX_BATCH then MAX_BATCH else b) outs
      (read_checkpoint fs) [] fs
  rw [fetch_pocket_items_eq, finalizeRun_trace]
  dsimp only
  rw [mergedRecs_append, mergedRecs_clampEvts, List.nil_append]
  exact hmerge (read_checkpoint fs) (by simp)

theorem countClampWarns_cons_clamp (b : Nat) (t : List Event) :
    countClampWarns (Event.clampWarn b :: t) = countClampWarns t + 1 := by
  simp [countClampWarns, List.countP_cons, isClampEv]

theorem requestCounts_cons_clamp (b : Nat) (t : List Event) :
    requestCounts (Event.clampWarn b :: t) = requestCounts t := rfl

theorem finalizeRun_trace_update (r : RunResult) (e : Event) :
    finalizeRun { r with trace := e :: r.trace }
      = { finalizeRun r with trace := e :: (finalizeRun r).trace } := by
  cases r with
  | mk ex off its f tr => cases ex <;> rfl

/-- Claim C7 (confirmed): a page response with an empty item collection
ends the run as complete — the `if not batch: break` check fires before
`total_available` is even computed, so this holds regardless of the
reported total (including a total far larger than the current offset, or
an unparseable one): from any loop state the run breaks with the state
untouched, and at run level the checkpoint is then deleted. -/
theorem claim_C7 :
    ∀ (c : Nat) (s : Nat) (list? : Option (List Item)) (total? : Option String)
      (rest : List Server) (o : Nat) (it : List Item) (fs : FS),
      s < 400 → list?.getD [] = [] →
      finalizeRun (fetchLoop c (constServer (.resp s (.json list? total?)) :: rest) o it fs)
        = ⟨.broke, o, it, ⟨none⟩, [.request o c]⟩
      ∧ (fetch_pocket_items 30 (constServer (.resp s (.json list? total?)) :: rest) fs).exit
          = .broke
      ∧ (fetch_pocket_items 30 (constServer (.resp s (.json list? total?)) :: rest) fs).fs
          = ⟨none⟩
      ∧ (fetch_pocket_items 30 (constServer (.resp s (.json list? total?)) :: rest) fs).items
          = [] := by
  intro c s list? total? rest o it fs hs hempty
  have hstep : stepPage c (constServer (.resp s (.json list? total?))) o it fs
      = .stop ⟨.broke, o, it, fs, [.request o c]⟩ :=
    stepPage_empty
      (show constServer (.resp s (.json list? total?)) o c = .resp s (.json list? total?)
        from rfl) (by omega) hempty
  have hstep2 : stepPage 30 (constServer (.resp s (.json list? total?)))
      (read_checkpoint fs) [] fs
      = .stop ⟨.broke, read_checkpoint fs, [], fs, [.request (read_checkpoint fs) 30]⟩ :=
    stepPage_empty
      (show constServer (.resp s (.json list? total?)) (read_checkpoint fs) 30
          = .resp s (.json list? total?)
        from rfl) (by omega) hempty
  have hrun : fetch_pocket_items 30 (constServer (.resp s (.json list? total?)) :: rest) fs
      = ⟨.broke, read_checkpoint fs, [], ⟨none⟩, [.request (read_checkpoint fs) 30]⟩ := by
    rw [fetch_pocket_items_le (show (30 : Nat) ≤ MAX_BATCH by decide),
      fetchLoop_cons_stop hstep2, finalizeRun_of_broke rfl]
  refine ⟨?_, by rw [hrun], by rw [hrun], by rw [hrun]⟩
  rw [fetchLoop_cons_stop hstep, finalizeRun_of_broke rfl]

theorem claim_C7_witness :
    finalizeRun (fetchLoop 5 (constServer (.resp 200 (.json (some []) (some "999")))
        :: [constServer .exc]) 3 [1, 2] ⟨some "3"⟩)
      = ⟨.broke, 3, [1, 2], ⟨none⟩, [.request 3 5]⟩
    ∧ (fetch_pocket_items 30 (constServer (.resp 200 (.json (some []) (some "999")))
        :: [constServer .exc]) ⟨some "3"⟩).exit = .broke
    ∧ (fetch_pocket_items 30 (constServer (.resp 200 (.json (some []) (some "999")))
        :: [constServer .exc]) ⟨some "3"⟩).fs = ⟨none⟩
    ∧ (fetch_pocket_items 30 (constServer (.resp 200 (.json (some []) (some "999")))
        :: [constServer .exc]) ⟨some "3"⟩).items = [] :=
  claim_C7 5 200 (some []) (some "999") [constServer .exc] 3 [1, 2] ⟨some "3"⟩
    (by decide) (by decide)

/-- Claim C8 (confirmed): the checkpoint round-trips — after
`_write_checkpoint o` the file's entire content is the decimal rendering
of `o` and `_read_checkpoint` returns `o`; and `_read_checkpoint`
returns 0, never failing, when the file is absent, when it is empty, and
whenever its content is a string of ASCII characters that Python `int`
rejects (`pyIntParse`, the faithful ASCII model of `int`, returns
`none`: this covers garbage such as `"g4"`, misplaced underscores such
as `"_42"`, a bare sign `"-"`, and whitespace-only contents, while
correctly claiming nothing about parseable forms such as `"\x0b42"`,
which `int` strips to 42). -/
theorem claim_C8 :
    ∀ (o : Nat) (fs : FS) (s : String),
      read_checkpoint (write_checkpoint o fs) = o
      ∧ (write_checkpoint o fs).checkpoint = some (natToDecStr o)
      ∧ read_checkpoint ⟨none⟩ = 0
      ∧ read_checkpoint ⟨some ""⟩ = 0
      ∧ ((∀ c ∈ s.data, c.toNat < 128) → pyIntParse s = none →
          read_checkpoint ⟨some s⟩ = 0) := by
  intro o fs s
  refine ⟨read_write_checkpoint o fs, rfl, rfl, rfl, ?_⟩
  intro _ hnone
  show (parsePyNat s).getD 0 = 0
  rw [parsePyNat_none_of_pyIntParse_none hnone]
  rfl

theorem claim_C8_witness :
    read_checkpoint (write_checkpoint 42 ⟨some "x"⟩) = 42
    ∧ (write_checkpoint 42 ⟨some "x"⟩).checkpoint = some (natToDecStr 42)
    ∧ read_checkpoint ⟨none⟩ = 0
    ∧ read_checkpoint ⟨some ""⟩ = 0
    ∧ read_checkpoint ⟨some "g4"⟩ = 0
    ∧ read_checkpoint ⟨some "_42"⟩ = 0
    ∧ read_checkpoint ⟨some "-"⟩ = 0 :=
  ⟨(claim_C8 42 ⟨some "x"⟩ "g4").1, (claim_C8 42 ⟨some "x"⟩ "g4").2.1,
   (claim_C8 42 ⟨some "x"⟩ "g4").2.2.1, (claim_C8 42 ⟨some "x"⟩ "g4").2.2.2.1,
   (claim_C8 42 ⟨some "x"⟩ "g4").2.2.2.2 (by decide) (by decide),
   (claim_C8 42 ⟨some "x"⟩ "_42").2.2.2.2 (by decide) (by decide),
   (claim_C8 42 ⟨some "x"⟩ "-").2.2.2.2 (by decide) (by decide)⟩

/-- Claim C9 (confirmed): a requested page size above the 30-item cap is
clamped to 30 before the loop and produces exactly one clamp warning —
not one per page — and no error: the run is identical to the run
requested at size 30 except for the single extra warning at the front of
the trace, every POST carries `count = 30`, and in particular a request
for 50 behaves as a request for 30. -/
theorem claim_C9 :
    ∀ (b : Nat) (outs : List Server) (fs : FS), MAX_BATCH < b →
      fetch_pocket_items b outs fs
        = { fetch_pocket_items MAX_BATCH outs fs with
            trace := Event.clampWarn b :: (fetch_pocket_items MAX_BATCH outs fs).trace }
      ∧ countClampWarns (fetch_pocket_items b outs fs).trace = 1
      ∧ (∀ x ∈ requestCounts (fetch_pocket_items b outs fs).trace, x = MAX_BATCH) := by
  intro b outs fs hb
  obtain ⟨_, _, _, hcnt, hclamp, _⟩ :=
    fetchLoop_invariants MAX_BATCH outs (read_checkpoint fs) [] fs
  refine ⟨?_, ?_, ?_⟩
  · rw [fetch_pocket_items_gt hb, fetch_pocket_items_le (Nat.le_refl MAX_BATCH),
      finalizeRun_trace_update]
  · rw [fetch_pocket_items_gt hb, finalizeRun_trace]
    dsimp only
    rw [countClampWarns_cons_clamp, hclamp]
  · intro x hx
    rw [fetch_pocket_items_gt hb, finalizeRun_trace] at hx
    dsimp only at hx
    rw [requestCounts_cons_clamp] at hx
    exact hcnt x hx

theorem claim_C9_witness :
    fetch_pocket_items 50 [constServer (.resp 200 (.json (some [1]) (some "10")))] ⟨none⟩
      = { fetch_pocket_items MAX_BATCH
            [constServer (.resp 200 (.json (some [1]) (some "10")))] ⟨none⟩ with
          trace := Event.clampWarn 50 ::
            (fetch_pocket_items MAX_BATCH
              [constServer (.resp 200 (.json (some [1]) (some "10")))] ⟨none⟩).trace }
    ∧ countClampWarns (fetch_pocket_items 50
        [constServer (.resp 200 (.json (some [1]) (some "10")))] ⟨none⟩).trace = 1 :=
  ⟨(claim_C9 50 [constServer (.resp 200 (.json (some [1]) (some "10")))] ⟨none⟩
      (by decide)).1,
   (claim_C9 50 [constServer (.resp 200 (.json (some [1]) (some "10")))] ⟨none⟩
      (by decide)).2.1⟩

/-- Claim C10 (confirmed): whenever a run returns normally (the loop
`break`s, the only fully-successful exit), the epilogue removes the
checkpoint file, so the next `_read_checkpoint` returns 0; and removal
itself (`unlink` with `missing_ok=True`) succeeds from every filesystem
state, in particular when the checkpoint is already absent. -/
theorem claim_C10 :
    ∀ (b : Nat) (outs : List Server) (fs g : FS),
      ((fetch_pocket_items b outs fs).exit = .broke →
        (fetch_pocket_items b outs fs).fs = ⟨none⟩
        ∧ read_checkpoint (fetch_pocket_items b outs fs).fs = 0)
      ∧ unlink_checkpoint g = ⟨none⟩
      ∧ read_checkpoint (unlink_checkpoint g) = 0 := by
  intro b outs fs g
  refine ⟨?_, rfl, rfl⟩
  intro hex
  rw [fetch_pocket_items_eq] at hex ⊢
  rw [finalizeRun_exit] at hex
  rw [finalizeRun_of_broke hex]
  exact ⟨rfl, rfl⟩

theorem claim_C10_witness :
    ((fetch_pocket_items 30 [constServer (.resp 200 (.json (some [1]) none))]
        ⟨some "4"⟩).fs = ⟨none⟩
      ∧ read_checkpoint (fetch_pocket_items 30
          [constServer (.resp 200 (.json (some [1]) none))] ⟨some "4"⟩).fs = 0)
    ∧ unlink_checkpoint ⟨none⟩ = ⟨none⟩
    ∧ read_checkpoint (unlink_checkpoint ⟨none⟩) = 0 :=
  ⟨(claim_C10 30 [constServer (.resp 200 (.json (some [1]) none))] ⟨some "4"⟩
      ⟨none⟩).1 (by decide),
   (claim_C10 30 [constServer (.resp 200 (.json (some [1]) none))] ⟨some "4"⟩ ⟨none⟩).2.1,
   (claim_C10 30 [constServer (.resp 200 (.json (some [1]) none))] ⟨some "4"⟩ ⟨none⟩).2.2⟩

end PocketExport
